import Mathlib

/-!
Shallow embedding of the order-pacing engine (PerDiemInc/order-pacing).

Instants are modelled in epoch seconds as `Int` (the code converts `Date`
values to whole seconds via `toSeconds` before every comparison, and epoch
seconds may be negative).  Monetary amounts and quantities are `Int` as well.
Optional record fields that the code reads defensively (`?.`, `?? d`) are
modelled with `Option`.
-/

namespace OrderPacing

/-- date-fns `minutesToSeconds` on integer minutes. -/
def minutesToSeconds (minutes : Int) : Int := minutes * 60

/-- `TimeframeMode` from `src/engine/types.ts`. -/
inductive TimeframeMode where
  | centered
  | before_only
  | after_only
  | before_and_after
deriving DecidableEq

/-- `OrderSource` from `src/engine/types.ts`. -/
inductive OrderSource where
  | perdiem
  | other
deriving DecidableEq

/-- `TimeWindow` from `src/engine/types.ts`; bounds in epoch seconds. -/
structure TimeWindow where
  start : Int
  «end» : Int
deriving DecidableEq

/-- `OrderItem` from `src/engine/types.ts`; the fields the engine reads
through `?.` / `??` are `Option`-valued. -/
structure OrderItem where
  itemId : String
  categoryId : Option String
  quantity : Option Int
  totalAmountCents : Option Int
deriving DecidableEq

/-- `Order` from `src/engine/types.ts`, with instants in epoch seconds. -/
structure Order where
  orderId : String
  items : Option (List OrderItem)
  totalAmountCents : Option Int
  source : OrderSource
  orderTimeSeconds : Int
  currentTimeSeconds : Int
deriving DecidableEq

/-- Threshold `type` tag: the string union `"orders" | "items" | "amount"`. -/
inductive ThresholdType where
  | orders
  | items
  | amount
deriving DecidableEq

/-- `Threshold` from `src/engine/types.ts`. -/
structure Threshold where
  type : ThresholdType
  value : Int
  limit : Int
  categoryIds : List String
deriving DecidableEq

/-- `BusyTimeContext` from `src/engine/types.ts`. -/
structure BusyTimeContext where
  totalAmountCents : Int
  totalItems : Int
  totalOrders : Int
  categoryIds : List String
deriving DecidableEq

/-- `BusyTime` from `src/engine/types.ts`; the `startTime` / `endTime`
`Date` fields are carried as epoch seconds. -/
structure BusyTime where
  startTimeSeconds : Int
  endTimeSeconds : Int
  orderTimeSeconds : Int
  currentTimeSeconds : Int
  busyTimeSeconds : Int
  busyTimeContext : BusyTimeContext
  threshold : Threshold
deriving DecidableEq

/-- `Rule` from `src/rules/types.ts`. -/
structure Rule where
  ruleId : String
  timeFrameMinutes : Int
  busyTimeMinutes : Int
  categoryIds : List String
  weekDays : List Int
  startTime : Option String
  endTime : Option String
  maxOrders : Option Int
  maxItems : Option Int
  maxAmountCents : Option Int
deriving DecidableEq

/-- `Engine.calculateTimeWindow` (`src/engine/Engine.ts`).  `Math.floor` of a
nonnegative dividend by 2 is integer floor division; `Int` division by a
positive literal is exactly floor division. -/
def calculateTimeWindow (orderTimeSeconds timeFrameSeconds : Int)
    (timeframeMode : TimeframeMode) : TimeWindow :=
  match timeframeMode with
  | .centered =>
      { start := orderTimeSeconds - timeFrameSeconds / 2
        «end» := orderTimeSeconds + timeFrameSeconds / 2 }
  | .before_only =>
      { start := orderTimeSeconds - timeFrameSeconds
        «end» := orderTimeSeconds }
  | .after_only =>
      { start := orderTimeSeconds
        «end» := orderTimeSeconds + timeFrameSeconds }
  | .before_and_after =>
      { start := orderTimeSeconds - timeFrameSeconds
        «end» := orderTimeSeconds + timeFrameSeconds }

/-- Membership of an instant in a time window, inclusive at both ends
(the store query `zrangebyscore` has inclusive bounds). -/
def inWindow (w : TimeWindow) (t : Int) : Prop :=
  w.start ≤ t ∧ t ≤ w.«end»

instance (w : TimeWindow) (t : Int) : Decidable (inWindow w t) := by
  unfold inWindow; infer_instance

/-- One entry of a Redis sorted set: a score paired with a stored value. -/
structure ScoredEntry (α : Type) where
  score : Int
  value : α
deriving DecidableEq

/-- Redis `ZREMRANGEBYSCORE key min max`: removes exactly the entries whose
score lies in `[minScore, maxScore]`, inclusive at both ends. -/
def zremrangebyscore {α : Type} (store : List (ScoredEntry α))
    (minScore maxScore : Int) : List (ScoredEntry α) :=
  store.filter (fun e => !(decide (minScore ≤ e.score) && decide (e.score ≤ maxScore)))

/-- `ORDERS_RETENTION_SECONDS` (`src/engine/Engine.ts:22`): 7 days in seconds. -/
def ORDERS_RETENTION_SECONDS : Int := 604800

/-- `Engine.cleanOldOrders` (`src/engine/Engine.ts:115-119`). -/
def cleanOldOrders {α : Type} (currentTimeSeconds : Int)
    (store : List (ScoredEntry α)) : List (ScoredEntry α) :=
  zremrangebyscore store 0 (currentTimeSeconds - ORDERS_RETENTION_SECONDS)

/-- `Engine.cleanOldBusyTimes` (`src/engine/Engine.ts:121-123`). -/
def cleanOldBusyTimes {α : Type} (currentTimeSeconds : Int)
    (store : List (ScoredEntry α)) : List (ScoredEntry α) :=
  zremrangebyscore store 0 currentTimeSeconds

/-- `Engine.addOrder` (`src/engine/Engine.ts:125-129`): `zadd` with the
order's `orderTimeSeconds` as score. -/
def addOrder (store : List (ScoredEntry Order)) (order : Order) :
    List (ScoredEntry Order) :=
  store ++ [⟨order.orderTimeSeconds, order⟩]

/-- `Engine.addBusyTime` (`src/engine/Engine.ts:131-135`): `zadd` with the
busy time's `orderTimeSeconds` as score. -/
def addBusyTime (store : List (ScoredEntry BusyTime)) (busyTime : BusyTime) :
    List (ScoredEntry BusyTime) :=
  store ++ [⟨busyTime.orderTimeSeconds, busyTime⟩]

/-- `item.quantity ?? 1` (`src/engine/EngineRule.ts`). -/
def itemQuantity (item : OrderItem) : Int := item.quantity.getD 1

/-- `order.items?.reduce((s, item) => s + (item.quantity ?? 1), 0) ?? 0`. -/
def orderItemsTotal (o : Order) : Int :=
  (o.items.map (fun items => items.foldl (fun itemsSum item => itemsSum + itemQuantity item) 0)).getD 0

/-- `allOrdersTotalItems` (`src/engine/EngineRule.ts`). -/
def allOrdersTotalItems (orders : List Order) : Int :=
  orders.foldl (fun ordersSum o => ordersSum + orderItemsTotal o) 0

/-- `allOrdersTotalAmountCents` (`src/engine/EngineRule.ts`). -/
def allOrdersTotalAmountCents (orders : List Order) : Int :=
  orders.foldl (fun ordersSum o => ordersSum + o.totalAmountCents.getD 0) 0

/-- Insertion into the `allOrdersCategoryIds` `Set`, preserving first-insertion
order as `Array.from` does. -/
def addCategoryId (acc : List String) (c : String) : List String :=
  if c ∈ acc then acc else acc ++ [c]

/-- The body of the inner `for (const item of order.items)` loop collecting
category ids: `if (item.categoryId) { allOrdersCategoryIds.add(...) }`
(`""` is falsy in JS). -/
def addItemCategory (acc : List String) (item : OrderItem) : List String :=
  match item.categoryId with
  | some c => if c = "" then acc else addCategoryId acc c
  | none => acc

/-- The body of the outer `for (const order of orders)` loop collecting
category ids: `if (order.items) { for (const item of order.items) ... }`. -/
def addOrderCategories (acc : List String) (o : Order) : List String :=
  match o.items with
  | some items => items.foldl addItemCategory acc
  | none => acc

/-- `allOrdersCategoryIds` (`src/engine/EngineRule.ts`): the set of truthy
`categoryId`s over all items of all orders, in first-insertion order. -/
def allOrdersCategoryIds (orders : List Order) : List String :=
  orders.foldl addOrderCategories []

/-- `item.categoryId && this.rule.categoryIds.includes(item.categoryId)`. -/
def itemMatches (categoryIds : List String) (item : OrderItem) : Bool :=
  match item.categoryId with
  | some c => c != "" && categoryIds.contains c
  | none => false

/-- The mutable state threaded through the `relevantOrders` filter in
`EngineRule.thresholdCheck`: the filtered orders and the two `applicable`
accumulators updated inside the filter callback. -/
structure ScanState where
  relevantOrders : List Order
  applicableTotalAmountCents : Int
  applicableTotalItems : Int
deriving DecidableEq

/-- One iteration of the `relevantOrders` filter callback
(`src/engine/EngineRule.ts:67-85`): an order with no items or an empty item
array is dropped without touching the accumulators; otherwise every matching
item adds its `totalAmountCents ?? 0` and `quantity ?? 1`, and the order is
kept iff some item matched. -/
def scanOrder (categoryIds : List String) (st : ScanState) (o : Order) : ScanState :=
  match o.items with
  | none => st
  | some items =>
      if items.length = 0 then st
      else
        let res := items.foldl
          (fun (p : Bool × Int × Int) item =>
            if itemMatches categoryIds item then
              (true, p.2.1 + item.totalAmountCents.getD 0, p.2.2 + itemQuantity item)
            else p)
          (false, st.applicableTotalAmountCents, st.applicableTotalItems)
        { relevantOrders := if res.1 then st.relevantOrders ++ [o] else st.relevantOrders
          applicableTotalAmountCents := res.2.1
          applicableTotalItems := res.2.2 }

/-- The whole `relevantOrders` filter pass with its accumulators. -/
def relevantScan (categoryIds : List String) (orders : List Order) : ScanState :=
  orders.foldl (scanOrder categoryIds) ⟨[], 0, 0⟩

/-- `totalOrders = relevantOrders.length` (`src/engine/EngineRule.ts:87`). -/
def totalOrders (rule : Rule) (orders : List Order) : Int :=
  if 0 < rule.categoryIds.length then
    ((relevantScan rule.categoryIds orders).relevantOrders.length : Int)
  else (orders.length : Int)

/-- `totalItems` (`src/engine/EngineRule.ts:89`). -/
def totalItems (rule : Rule) (orders : List Order) : Int :=
  if 0 < rule.categoryIds.length then
    (relevantScan rule.categoryIds orders).applicableTotalItems
  else allOrdersTotalItems orders

/-- `totalAmount` (`src/engine/EngineRule.ts:91`). -/
def totalAmount (rule : Rule) (orders : List Order) : Int :=
  if 0 < rule.categoryIds.length then
    (relevantScan rule.categoryIds orders).applicableTotalAmountCents
  else allOrdersTotalAmountCents orders

/-- The guard shared by the three threshold branches:
`this.rule.maxX && this.rule.maxX > 0 && total >= this.rule.maxX`
(an absent field and the falsy `0` both fail the guard). -/
def limitHit (limit : Option Int) (total : Int) : Bool :=
  match limit with
  | some m => m != 0 && decide (0 < m) && decide (m ≤ total)
  | none => false

/-- The `busyTimeContext` literal built in every branch of
`EngineRule.thresholdCheck`: always the all-orders aggregates. -/
def allOrdersContext (orders : List Order) : BusyTimeContext :=
  { totalAmountCents := allOrdersTotalAmountCents orders
    totalItems := allOrdersTotalItems orders
    totalOrders := (orders.length : Int)
    categoryIds := allOrdersCategoryIds orders }

/-- `thresholdInfo`: the non-null return value of `thresholdCheck`. -/
structure ThresholdInfo where
  threshold : Threshold
  busyTimeContext : BusyTimeContext
deriving DecidableEq

/-- `EngineRule.thresholdCheck` (`src/engine/EngineRule.ts:42-145`). -/
def thresholdCheck (rule : Rule) (orders : List Order) : Option ThresholdInfo :=
  if limitHit rule.maxOrders (totalOrders rule orders) then
    some ⟨⟨.orders, totalOrders rule orders, rule.maxOrders.getD 0, rule.categoryIds⟩,
      allOrdersContext orders⟩
  else if limitHit rule.maxItems (totalItems rule orders) then
    some ⟨⟨.items, totalItems rule orders, rule.maxItems.getD 0, rule.categoryIds⟩,
      allOrdersContext orders⟩
  else if limitHit rule.maxAmountCents (totalAmount rule orders) then
    some ⟨⟨.amount, totalAmount rule orders, rule.maxAmountCents.getD 0, rule.categoryIds⟩,
      allOrdersContext orders⟩
  else none

/-- The busy-period construction on trigger (`src/engine/Engine.ts:186-201`).
`prepTimeMinutes` is the rule's configured busy-time duration in minutes
(`rule.prepTime` in the engine, `busyTimeMinutes` in the spec). -/
def mkBusyTime (orderTimeSeconds currentTimeSeconds prepTimeMinutes : Int)
    (info : ThresholdInfo) : BusyTime :=
  let busyTimeSeconds := minutesToSeconds prepTimeMinutes
  let endTimeSeconds := max orderTimeSeconds (currentTimeSeconds + busyTimeSeconds)
  let startTimeSeconds := endTimeSeconds - busyTimeSeconds
  { startTimeSeconds := startTimeSeconds
    endTimeSeconds := endTimeSeconds
    orderTimeSeconds := orderTimeSeconds
    currentTimeSeconds := currentTimeSeconds
    busyTimeSeconds := busyTimeSeconds
    busyTimeContext := info.busyTimeContext
    threshold := info.threshold }

/-- The `for (const busyTime of busyTimes)` loop of
`Engine.validateOrderTime` (`src/engine/Engine.ts:305-321`): the running
`waitPeriodSeconds` accumulator is passed explicitly; a miss breaks the loop
and the accumulator is returned unchanged. -/
def waitScan (orderTimeSeconds : Int) : List BusyTime → Int → Int
  | [], waitPeriodSeconds => waitPeriodSeconds
  | busyTime :: rest, waitPeriodSeconds =>
      let orderTimeSecondsWithOffset := orderTimeSeconds + waitPeriodSeconds
      if busyTime.startTimeSeconds ≤ orderTimeSecondsWithOffset ∧
          orderTimeSecondsWithOffset ≤ busyTime.endTimeSeconds then
        waitScan orderTimeSeconds rest (busyTime.endTimeSeconds + 1 - orderTimeSeconds)
      else waitPeriodSeconds

/-- The record returned by `Engine.validateOrderTime`. -/
structure WaitPeriodInfo where
  waitPeriodSeconds : Int
  ordersInWindow : Int
deriving DecidableEq

/-- `Engine.validateOrderTime` (`src/engine/Engine.ts:294-327`), taking the
busy periods fetched by `getBusyTimes` as input.  `ordersInWindow` is
initialised to 0 and never written. -/
def validateOrderTime (busyTimes : List BusyTime) (orderTimeSeconds : Int) :
    WaitPeriodInfo :=
  { waitPeriodSeconds := waitScan orderTimeSeconds busyTimes 0
    ordersInWindow := 0 }

/-- The items of an order whose `categoryId` is in the rule's `categoryIds`
(the spec's "matching items"); an absent item array yields none. -/
def matchingItems (categoryIds : List String) (o : Order) : List OrderItem :=
  (o.items.getD []).filter (fun item => itemMatches categoryIds item)

/-- Spec-side restatement of `applicableTotalItems`: the sum, over all
windowed orders, of the quantities of the items matching the rule's
categories ("summed only over matching items, not the whole order"). -/
def specApplicableTotalItems (categoryIds : List String) (orders : List Order) : Int :=
  (orders.map (fun o => ((matchingItems categoryIds o).map itemQuantity).sum)).sum

/-- Spec-side restatement of `applicableTotalAmountCents`: the sum of the
matching items' `totalAmountCents` over all windowed orders. -/
def specApplicableTotalAmountCents (categoryIds : List String) (orders : List Order) : Int :=
  (orders.map (fun o => ((matchingItems categoryIds o).map (fun item => item.totalAmountCents.getD 0)).sum)).sum

/-- Spec-side restatement of the all-orders item total: Σ over orders of
Σ over their items of `quantity ?? 1`. -/
def specTotalItems (orders : List Order) : Int :=
  (orders.map (fun o => ((o.items.getD []).map itemQuantity).sum)).sum

/-- Spec-side restatement of the all-orders amount total: Σ over orders of
`totalAmountCents ?? 0`. -/
def specTotalAmountCents (orders : List Order) : Int :=
  (orders.map (fun o => o.totalAmountCents.getD 0)).sum

/-- A trivial `BusyTimeContext` used to build concrete busy periods. -/
def egContext : BusyTimeContext := ⟨0, 0, 0, []⟩

/-- A trivial `Threshold` used to build concrete busy periods. -/
def egThreshold : Threshold := ⟨.orders, 0, 0, []⟩

/-- A concrete busy period `[s, e]` with trivial metadata. -/
def egPeriod (s e : Int) : BusyTime := ⟨s, e, 0, 0, 0, egContext, egThreshold⟩

/-- A minimal own-channel order with no items. -/
def egOrder : Order := ⟨"", none, none, .perdiem, 0, 0⟩

/-- An item in category `"burger"`, quantity 5, 500 cents. -/
def burgerItem : OrderItem := ⟨"i1", some "burger", some 5, some 500⟩

/-- An order whose only item is in category `"burger"`. -/
def burgerOrder : Order := ⟨"o1", some [burgerItem], some 500, .perdiem, 0, 0⟩

/-- A rule scoped to category `"pizza"` with every threshold set to 1. -/
def pizzaRule : Rule := ⟨"r1", 15, 10, ["pizza"], [], none, none, some 1, some 1, some 1⟩

/-- An unscoped rule with `maxOrders = 2` as its only threshold. -/
def ruleTwoOrders : Rule := ⟨"r2", 15, 10, [], [], none, none, some 2, none, none⟩

/-- An unscoped rule with `maxOrders = 1` as its only threshold. -/
def plainRuleOne : Rule := ⟨"r3", 15, 10, [], [], none, none, some 1, none, none⟩

/-- Claim C1: `validateOrderTime` is a single left-to-right sweep starting at
cumulative wait 0: an empty list yields the accumulator; a period containing
`instant + cumulativeWait` updates the wait to `endTime + 1 − instant`
(recomputed from the original instant) and continues; a miss stops the scan
at once, ignoring all later periods; the final accumulator is returned as
`waitPeriodSeconds`.  For periods `[100,110], [111,120], [130,140]` and
instant 100 the result chains through the first two (wait 21, effective
time 121 after 120) and does not reach the third (121 < 130). -/
theorem C1_validateOrderTime_sweep :
    (∀ t acc : Int, waitScan t [] acc = acc) ∧
    (∀ (t acc : Int) (busyTime : BusyTime) (rest : List BusyTime),
      (busyTime.startTimeSeconds ≤ t + acc ∧ t + acc ≤ busyTime.endTimeSeconds →
        waitScan t (busyTime :: rest) acc =
          waitScan t rest (busyTime.endTimeSeconds + 1 - t)) ∧
      (¬(busyTime.startTimeSeconds ≤ t + acc ∧ t + acc ≤ busyTime.endTimeSeconds) →
        waitScan t (busyTime :: rest) acc = acc)) ∧
    (∀ (busyTimes : List BusyTime) (t : Int),
      (validateOrderTime busyTimes t).waitPeriodSeconds = waitScan t busyTimes 0) ∧
    ((validateOrderTime [egPeriod 100 110, egPeriod 111 120, egPeriod 130 140] 100).waitPeriodSeconds = 21 ∧
      120 < 100 + 21 ∧ 100 + 21 < 130) := by
  refine ⟨fun t acc => rfl, fun t acc busyTime rest => ⟨fun h => ?_, fun h => ?_⟩,
    fun busyTimes t => rfl, by decide, by decide, by decide⟩
  · simp only [waitScan]
    rw [if_pos h]
  · simp only [waitScan]
    rw [if_neg h]

/-- Witness for C1: the in-range step at a concrete input — instant 100 with
accumulator 0 lies in the period `[100,110]`, so the scan continues on the
tail with wait `110 + 1 − 100`. -/
theorem C1_validateOrderTime_sweep_witness :
    waitScan 100 [egPeriod 100 110] 0 = waitScan 100 [] (110 + 1 - 100) :=
  (C1_validateOrderTime_sweep.2.1 100 0 (egPeriod 100 110) []).1 (by decide)

/-- Claim C2 (code bug): busy periods are stored scored by
`orderTimeSeconds`, not by their `endTime` (`Engine.ts:134`), so pruning at
`now` (`cleanOldBusyTimes` trims scores in `[0, now]`) removes a busy period
whose `endTime` is still in the future.  Concretely, the period created for
an order at time 100 ingested at time 100 with a 2-minute busy time has
`endTime = 220` but score 100, and is removed by the prune at `now = 150`,
contradicting the lifecycle stated by the spec. -/
theorem C2_busy_period_score_bug :
    (∀ (store : List (ScoredEntry BusyTime)) (busyTime : BusyTime),
      addBusyTime store busyTime = store ++ [⟨busyTime.orderTimeSeconds, busyTime⟩]) ∧
    ((mkBusyTime 100 100 2 ⟨egThreshold, egContext⟩).endTimeSeconds = 220 ∧
      150 < (mkBusyTime 100 100 2 ⟨egThreshold, egContext⟩).endTimeSeconds ∧
      cleanOldBusyTimes 150 (addBusyTime [] (mkBusyTime 100 100 2 ⟨egThreshold, egContext⟩)) = []) :=
  ⟨fun store busyTime => rfl, by decide, by decide, by decide⟩

/-- Claim C3: on trigger, `busyTimeSeconds` is the configured minutes times
60, `endTimeSeconds = max(orderTimeSeconds, currentTimeSeconds +
busyTimeSeconds)` and `startTimeSeconds = endTimeSeconds − busyTimeSeconds`;
hence the period's extent is exactly `busyTimeSeconds` and its end is at
least `currentTimeSeconds + busyTimeSeconds`, for every order time,
ingestion time and configured duration. -/
theorem C3_busy_period_construction (o c p : Int) (info : ThresholdInfo) :
    (mkBusyTime o c p info).busyTimeSeconds = p * 60 ∧
    (mkBusyTime o c p info).endTimeSeconds = max o (c + p * 60) ∧
    (mkBusyTime o c p info).startTimeSeconds = (mkBusyTime o c p info).endTimeSeconds - p * 60 ∧
    (mkBusyTime o c p info).endTimeSeconds - (mkBusyTime o c p info).startTimeSeconds = p * 60 ∧
    c + p * 60 ≤ (mkBusyTime o c p info).endTimeSeconds := by
  refine ⟨rfl, rfl, rfl, ?_, ?_⟩ <;>
    · simp only [mkBusyTime, minutesToSeconds]
      omega

/-- Claim C6: the four timeframe modes produce exactly the windows
`[T−F, T]`, `[T, T+F]`, `[T−⌊F/2⌋, T+⌊F/2⌋]` and `[T−F, T+F]`; and in
centered mode with `timeFrameMinutes = 2F` an order exactly `F` minutes from
the probe is inside the window while one minute further is outside. -/
theorem C6_calculateTimeWindow (T S F : Int) :
    calculateTimeWindow T S .before_only = ⟨T - S, T⟩ ∧
    calculateTimeWindow T S .after_only = ⟨T, T + S⟩ ∧
    calculateTimeWindow T S .centered = ⟨T - S / 2, T + S / 2⟩ ∧
    calculateTimeWindow T S .before_and_after = ⟨T - S, T + S⟩ ∧
    (0 < F →
      inWindow (calculateTimeWindow T (minutesToSeconds (2 * F)) .centered)
        (T - minutesToSeconds F) ∧
      inWindow (calculateTimeWindow T (minutesToSeconds (2 * F)) .centered)
        (T + minutesToSeconds F) ∧
      ¬ inWindow (calculateTimeWindow T (minutesToSeconds (2 * F)) .centered)
        (T - minutesToSeconds F - 60) ∧
      ¬ inWindow (calculateTimeWindow T (minutesToSeconds (2 * F)) .centered)
        (T + minutesToSeconds F + 60)) := by
  refine ⟨rfl, rfl, rfl, rfl, fun hF => ?_⟩
  simp only [calculateTimeWindow, inWindow, minutesToSeconds]
  constructor
  · constructor <;> omega
  constructor
  · constructor <;> omega
  constructor <;> · intro h; omega

/-- Witness for C6: the centered-mode boundary facts at `T = 0`, `F = 1`. -/
theorem C6_calculateTimeWindow_witness :
    inWindow (calculateTimeWindow 0 (minutesToSeconds (2 * 1)) .centered)
      (0 - minutesToSeconds 1) ∧
    inWindow (calculateTimeWindow 0 (minutesToSeconds (2 * 1)) .centered)
      (0 + minutesToSeconds 1) ∧
    ¬ inWindow (calculateTimeWindow 0 (minutesToSeconds (2 * 1)) .centered)
      (0 - minutesToSeconds 1 - 60) ∧
    ¬ inWindow (calculateTimeWindow 0 (minutesToSeconds (2 * 1)) .centered)
      (0 + minutesToSeconds 1 + 60) :=
  (C6_calculateTimeWindow 0 0 1).2.2.2.2 (by decide)

/-- Claim C8 counterexample: the claim says an order whose score equals
exactly `now − 604800` is retained by the order prune; but
`zremrangebyscore(key, 0, now − 604800)` is inclusive at its upper bound, so
at `now = 604800` an order with score 0 is removed. -/
theorem C8_retention_counterexample :
    cleanOldOrders 604800 [ScoredEntry.mk 0 egOrder] = [] := by decide

/-- Claim C8 (amended): the order prune removes exactly the stored orders
whose score lies in the inclusive range `[0, now − 604800]`: an entry
survives iff its score is negative or strictly greater than `now − 604800`;
in particular an order whose score equals exactly `now − 604800` is removed. -/
theorem C8_retention_window (now : Int) (store : List (ScoredEntry Order))
    (e : ScoredEntry Order) :
    e ∈ cleanOldOrders now store ↔
      e ∈ store ∧ (e.score < 0 ∨ now - 604800 < e.score) := by
  simp only [cleanOldOrders, zremrangebyscore, ORDERS_RETENTION_SECONDS,
    List.mem_filter, Bool.not_eq_eq_eq_not, Bool.not_true, Bool.and_eq_false_imp,
    decide_eq_true_eq, decide_eq_false_iff_not]
  exact and_congr_right fun _ => by omega

/-- Claim C9: the `ordersInWindow` field of the `validateOrderTime` result is
zero for every stored set of busy periods and every query instant. -/
theorem C9_ordersInWindow_always_zero (busyTimes : List BusyTime) (t : Int) :
    (validateOrderTime busyTimes t).ordersInWindow = 0 := rfl

/-- Claim C10: both pruning operations delete only entries with score in
`[0, bound]`, so an entry with a negative score (a time before the 1970
epoch) is never removed by either prune, at any current time. -/
theorem C10_negative_scores_never_pruned {α : Type} (now : Int)
    (store : List (ScoredEntry α)) (e : ScoredEntry α) (h : e.score < 0) :
    (e ∈ cleanOldOrders now store ↔ e ∈ store) ∧
    (e ∈ cleanOldBusyTimes now store ↔ e ∈ store) := by
  constructor <;>
    · simp only [cleanOldOrders, cleanOldBusyTimes, zremrangebyscore, List.mem_filter,
        Bool.not_eq_eq_eq_not, Bool.not_true, Bool.and_eq_false_imp,
        decide_eq_true_eq, decide_eq_false_iff_not]
      exact and_iff_left (by omega)

/-- Witness for C10: a concrete entry with score −5 survives both prunes at
`now = 1000000`. -/
theorem C10_negative_scores_never_pruned_witness :
    ((ScoredEntry.mk (-5) (0 : Int)) ∈ cleanOldOrders 1000000 [ScoredEntry.mk (-5) (0 : Int)] ↔
      (ScoredEntry.mk (-5) (0 : Int)) ∈ [ScoredEntry.mk (-5) (0 : Int)]) ∧
    ((ScoredEntry.mk (-5) (0 : Int)) ∈ cleanOldBusyTimes 1000000 [ScoredEntry.mk (-5) (0 : Int)] ↔
      (ScoredEntry.mk (-5) (0 : Int)) ∈ [ScoredEntry.mk (-5) (0 : Int)]) :=
  C10_negative_scores_never_pruned 1000000 [ScoredEntry.mk (-5) 0]
    (ScoredEntry.mk (-5) 0) (by decide)

theorem foldl_add_map {α : Type} (f : α → Int) (l : List α) :
    ∀ init : Int, l.foldl (fun s x => s + f x) init = init + (l.map f).sum := by
  induction l with
  | nil => intro init; simp
  | cons x xs ih =>
      intro init
      simp only [List.foldl_cons, List.map_cons, List.sum_cons, ih]
      ring

theorem orderItemsTotal_eq (o : Order) :
    orderItemsTotal o = ((o.items.getD []).map itemQuantity).sum := by
  unfold orderItemsTotal
  cases o.items with
  | none => simp
  | some items => simpa using foldl_add_map itemQuantity items 0

theorem allOrdersTotalItems_eq (orders : List Order) :
    allOrdersTotalItems orders = specTotalItems orders := by
  unfold allOrdersTotalItems specTotalItems
  rw [foldl_add_map orderItemsTotal orders 0]
  rw [List.map_congr_left (fun o _ => orderItemsTotal_eq o)]
  simp

theorem allOrdersTotalAmountCents_eq (orders : List Order) :
    allOrdersTotalAmountCents orders = specTotalAmountCents orders := by
  unfold allOrdersTotalAmountCents specTotalAmountCents
  rw [foldl_add_map (fun o => o.totalAmountCents.getD 0) orders 0]
  simp

theorem filter_isEmpty_eq_not_any {α : Type} (p : α → Bool) (l : List α) :
    (l.filter p).isEmpty = !l.any p := by
  induction l with
  | nil => rfl
  | cons x xs ih => by_cases hx : p x <;> simp [List.filter_cons, hx, ih]

theorem itemFold_closed (categoryIds : List String) (items : List OrderItem) :
    ∀ (b : Bool) (a i : Int),
      items.foldl
        (fun (p : Bool × Int × Int) item =>
          if itemMatches categoryIds item then
            (true, p.2.1 + item.totalAmountCents.getD 0, p.2.2 + itemQuantity item)
          else p)
        (b, a, i)
      = (b || items.any (itemMatches categoryIds),
         a + ((items.filter (itemMatches categoryIds)).map (fun item => item.totalAmountCents.getD 0)).sum,
         i + ((items.filter (itemMatches categoryIds)).map itemQuantity).sum) := by
  induction items with
  | nil => intro b a i; simp
  | cons x xs ih =>
      intro b a i
      by_cases hx : itemMatches categoryIds x
      · simp only [List.foldl_cons, if_pos hx, ih, List.any_cons, hx,
          List.filter_cons_of_pos, List.map_cons, List.sum_cons, Prod.mk.injEq, if_true]
        refine ⟨by simp, by ring, by ring⟩
      · simp only [List.foldl_cons, if_neg hx, ih, List.any_cons,
          List.filter_cons_of_neg hx]
        simp [hx]

theorem scanOrder_closed (categoryIds : List String) (st : ScanState) (o : Order) :
    scanOrder categoryIds st o =
      { relevantOrders :=
          st.relevantOrders ++ if (matchingItems categoryIds o).isEmpty then [] else [o]
        applicableTotalAmountCents :=
          st.applicableTotalAmountCents +
            ((matchingItems categoryIds o).map (fun item => item.totalAmountCents.getD 0)).sum
        applicableTotalItems :=
          st.applicableTotalItems + ((matchingItems categoryIds o).map itemQuantity).sum } := by
  cases ho : o.items with
  | none => cases st; simp [scanOrder, matchingItems, ho]
  | some items =>
      by_cases hlen : items.length = 0
      · rw [List.length_eq_zero] at hlen
        subst hlen
        cases st
        simp [scanOrder, matchingItems, ho]
      · cases st
        simp only [scanOrder, matchingItems, ho, hlen, if_false, itemFold_closed,
          Bool.false_or, Option.getD_some]
        rw [filter_isEmpty_eq_not_any]
        cases hany : items.any (itemMatches categoryIds) <;> simp [hany]

theorem relevantScan_closed (categoryIds : List String) (orders : List Order) :
    relevantScan categoryIds orders =
      { relevantOrders := orders.filter (fun o => !(matchingItems categoryIds o).isEmpty)
        applicableTotalAmountCents := specApplicableTotalAmountCents categoryIds orders
        applicableTotalItems := specApplicableTotalItems categoryIds orders } := by
  have key : ∀ (os : List Order) (st : ScanState),
      os.foldl (scanOrder categoryIds) st =
        { relevantOrders :=
            st.relevantOrders ++ os.filter (fun o => !(matchingItems categoryIds o).isEmpty)
          applicableTotalAmountCents :=
            st.applicableTotalAmountCents + specApplicableTotalAmountCents categoryIds os
          applicableTotalItems :=
            st.applicableTotalItems + specApplicableTotalItems categoryIds os } := by
    intro os
    induction os with
    | nil =>
        intro st
        cases st
        simp [specApplicableTotalAmountCents, specApplicableTotalItems]
    | cons o rest ih =>
        intro st
        rw [List.foldl_cons, scanOrder_closed, ih]
        simp only [specApplicableTotalAmountCents, specApplicableTotalItems, List.map_cons,
          List.sum_cons, List.filter_cons, ScanState.mk.injEq]
        refine ⟨?_, by ring, by ring⟩
        cases hm : (matchingItems categoryIds o).isEmpty <;> simp [hm]
  unfold relevantScan
  rw [key orders ⟨[], 0, 0⟩]
  simp

theorem mem_addCategoryId (acc : List String) (c d : String) :
    d ∈ addCategoryId acc c ↔ d ∈ acc ∨ d = c := by
  unfold addCategoryId
  by_cases h : c ∈ acc
  · rw [if_pos h]
    constructor
    · exact Or.inl
    · rintro (hd | rfl)
      · exact hd
      · exact h
  · rw [if_neg h]
    simp

theorem mem_addItemCategory (acc : List String) (item : OrderItem) (d : String) :
    d ∈ addItemCategory acc item ↔ d ∈ acc ∨ (d ≠ "" ∧ item.categoryId = some d) := by
  cases hc : item.categoryId with
  | none => simp [addItemCategory, hc]
  | some c =>
      by_cases hce : c = ""
      · subst hce
        simp only [addItemCategory, hc, if_pos rfl]
        constructor
        · exact Or.inl
        · rintro (hd | ⟨hne, hd⟩)
          · exact hd
          · exact absurd (Option.some.inj hd).symm hne
      · simp only [addItemCategory, hc, if_neg hce, mem_addCategoryId, Option.some.injEq]
        constructor
        · rintro (hd | rfl)
          · exact Or.inl hd
          · exact Or.inr ⟨hce, rfl⟩
        · rintro (hd | ⟨hne, rfl⟩)
          · exact Or.inl hd
          · exact Or.inr rfl

theorem mem_itemsFold (items : List OrderItem) :
    ∀ (acc : List String) (d : String),
      d ∈ items.foldl addItemCategory acc ↔
        d ∈ acc ∨ (d ≠ "" ∧ ∃ item ∈ items, item.categoryId = some d) := by
  induction items with
  | nil => simp
  | cons x xs ih =>
      intro acc d
      rw [List.foldl_cons, ih, mem_addItemCategory]
      constructor
      · rintro ((hd | ⟨hne, hx⟩) | ⟨hne, item, hmem, hcat⟩)
        · exact Or.inl hd
        · exact Or.inr ⟨hne, x, List.mem_cons_self x xs, hx⟩
        · exact Or.inr ⟨hne, item, List.mem_cons_of_mem x hmem, hcat⟩
      · rintro (hd | ⟨hne, item, hmem, hcat⟩)
        · exact Or.inl (Or.inl hd)
        · rcases List.mem_cons.mp hmem with rfl | hmem'
          · exact Or.inl (Or.inr ⟨hne, hcat⟩)
          · exact Or.inr ⟨hne, item, hmem', hcat⟩

theorem mem_addOrderCategories (acc : List String) (o : Order) (d : String) :
    d ∈ addOrderCategories acc o ↔
      d ∈ acc ∨ (d ≠ "" ∧ ∃ item ∈ o.items.getD [], item.categoryId = some d) := by
  cases ho : o.items with
  | none => simp [addOrderCategories, ho]
  | some items => simp [addOrderCategories, ho, mem_itemsFold]

theorem mem_allOrdersCategoryIds (orders : List Order) (d : String) :
    d ∈ allOrdersCategoryIds orders ↔
      d ≠ "" ∧ ∃ o ∈ orders, ∃ item ∈ o.items.getD [], item.categoryId = some d := by
  have key : ∀ (os : List Order) (acc : List String),
      d ∈ os.foldl addOrderCategories acc ↔
        d ∈ acc ∨ (d ≠ "" ∧ ∃ o ∈ os, ∃ item ∈ o.items.getD [], item.categoryId = some d) := by
    intro os
    induction os with
    | nil => simp
    | cons o rest ih =>
        intro acc
        rw [List.foldl_cons, ih, mem_addOrderCategories]
        constructor
        · rintro ((hd | ⟨hne, hx⟩) | ⟨hne, o', hmem, hitem⟩)
          · exact Or.inl hd
          · exact Or.inr ⟨hne, o, List.mem_cons_self o rest, hx⟩
          · exact Or.inr ⟨hne, o', List.mem_cons_of_mem o hmem, hitem⟩
        · rintro (hd | ⟨hne, o', hmem, hitem⟩)
          · exact Or.inl (Or.inl hd)
          · rcases List.mem_cons.mp hmem with rfl | hmem'
            · exact Or.inl (Or.inr ⟨hne, hitem⟩)
            · exact Or.inr ⟨hne, o', hmem', hitem⟩
  unfold allOrdersCategoryIds
  rw [key orders []]
  simp

theorem limitHit_iff (x : Option Int) (t : Int) :
    limitHit x t = true ↔ ∃ m, x = some m ∧ 0 < m ∧ m ≤ t := by
  cases x with
  | none => simp [limitHit]
  | some m =>
      simp [limitHit]
      omega

theorem limitHit_not_true (x : Option Int) (t : Int)
    (hmiss : ∀ k, x = some k → 0 < k → t < k) : ¬ limitHit x t = true := by
  rw [limitHit_iff]
  rintro ⟨m, hm, h0, hle⟩
  exact absurd (hmiss m hm h0) (by omega)

theorem thresholdCheck_context (rule : Rule) (orders : List Order)
    (info : ThresholdInfo) (h : thresholdCheck rule orders = some info) :
    info.busyTimeContext = allOrdersContext orders := by
  unfold thresholdCheck at h
  split_ifs at h
  · injection h with h'
    rw [← h']
  · injection h with h'
    rw [← h']
  · injection h with h'
    rw [← h']

/-- Claim C4: threshold evaluation checks `maxOrders`, then `maxItems`, then
`maxAmountCents`, in that fixed priority, returning the first threshold whose
observed total meets or exceeds its limit (inclusive `≥`), `none` when no
limit is met; and for an unscoped rule whose only threshold is
`maxOrders = N > 0`, a window of exactly `N−1` orders does not trigger while
exactly `N` does (`none` iff the order count is below `N`). -/
theorem C4_threshold_priority :
    (∀ (rule : Rule) (orders : List Order) (m : Int),
      rule.maxOrders = some m → 0 < m → m ≤ totalOrders rule orders →
      thresholdCheck rule orders =
        some ⟨⟨.orders, totalOrders rule orders, m, rule.categoryIds⟩,
          allOrdersContext orders⟩) ∧
    (∀ (rule : Rule) (orders : List Order) (m : Int),
      rule.maxItems = some m → 0 < m → m ≤ totalItems rule orders →
      (∀ k, rule.maxOrders = some k → 0 < k → totalOrders rule orders < k) →
      thresholdCheck rule orders =
        some ⟨⟨.items, totalItems rule orders, m, rule.categoryIds⟩,
          allOrdersContext orders⟩) ∧
    (∀ (rule : Rule) (orders : List Order) (m : Int),
      rule.maxAmountCents = some m → 0 < m → m ≤ totalAmount rule orders →
      (∀ k, rule.maxOrders = some k → 0 < k → totalOrders rule orders < k) →
      (∀ k, rule.maxItems = some k → 0 < k → totalItems rule orders < k) →
      thresholdCheck rule orders =
        some ⟨⟨.amount, totalAmount rule orders, m, rule.categoryIds⟩,
          allOrdersContext orders⟩) ∧
    (∀ (rule : Rule) (orders : List Order),
      (∀ k, rule.maxOrders = some k → 0 < k → totalOrders rule orders < k) →
      (∀ k, rule.maxItems = some k → 0 < k → totalItems rule orders < k) →
      (∀ k, rule.maxAmountCents = some k → 0 < k → totalAmount rule orders < k) →
      thresholdCheck rule orders = none) ∧
    (∀ (N : Int) (rid : String) (tf bm : Int) (wd : List Int) (orders : List Order),
      0 < N →
      (thresholdCheck ⟨rid, tf, bm, [], wd, none, none, some N, none, none⟩ orders = none ↔
        (orders.length : Int) < N)) := by
  have h1 : ∀ (rule : Rule) (orders : List Order) (m : Int),
      rule.maxOrders = some m → 0 < m → m ≤ totalOrders rule orders →
      thresholdCheck rule orders =
        some ⟨⟨.orders, totalOrders rule orders, m, rule.categoryIds⟩,
          allOrdersContext orders⟩ := by
    intro rule orders m hm h0 hle
    unfold thresholdCheck
    rw [if_pos ((limitHit_iff _ _).mpr ⟨m, hm, h0, hle⟩)]
    simp [hm]
  have h4 : ∀ (rule : Rule) (orders : List Order),
      (∀ k, rule.maxOrders = some k → 0 < k → totalOrders rule orders < k) →
      (∀ k, rule.maxItems = some k → 0 < k → totalItems rule orders < k) →
      (∀ k, rule.maxAmountCents = some k → 0 < k → totalAmount rule orders < k) →
      thresholdCheck rule orders = none := by
    intro rule orders hmissO hmissI hmissA
    unfold thresholdCheck
    rw [if_neg (limitHit_not_true _ _ hmissO), if_neg (limitHit_not_true _ _ hmissI),
      if_neg (limitHit_not_true _ _ hmissA)]
  refine ⟨h1, ?_, ?_, h4, ?_⟩
  · intro rule orders m hm h0 hle hmissO
    unfold thresholdCheck
    rw [if_neg (limitHit_not_true _ _ hmissO),
      if_pos ((limitHit_iff _ _).mpr ⟨m, hm, h0, hle⟩)]
    simp [hm]
  · intro rule orders m hm h0 hle hmissO hmissI
    unfold thresholdCheck
    rw [if_neg (limitHit_not_true _ _ hmissO), if_neg (limitHit_not_true _ _ hmissI),
      if_pos ((limitHit_iff _ _).mpr ⟨m, hm, h0, hle⟩)]
    simp [hm]
  · intro N rid tf bm wd orders hN
    have hto : totalOrders ⟨rid, tf, bm, [], wd, none, none, some N, none, none⟩ orders
        = (orders.length : Int) := by
      simp [totalOrders]
    constructor
    · intro hnone
      by_contra hge
      have hsome := h1 ⟨rid, tf, bm, [], wd, none, none, some N, none, none⟩ orders N rfl hN
        (by rw [hto]; omega)
      rw [hsome] at hnone
      exact Option.noConfusion hnone
    · intro hlt
      exact h4 _ orders
        (fun k hk h0k => by cases Option.some.inj hk; rw [hto]; omega)
        (fun k hk h0k => Option.noConfusion hk)
        (fun k hk h0k => Option.noConfusion hk)

/-- Witness for C4: with the unscoped rule `maxOrders = 2`, one order does
not trigger and two orders trigger the orders threshold with observed
value 2. -/
theorem C4_threshold_priority_witness :
    thresholdCheck ruleTwoOrders [egOrder] = none ∧
    thresholdCheck ruleTwoOrders [egOrder, egOrder] =
      some ⟨⟨.orders, totalOrders ruleTwoOrders [egOrder, egOrder], 2, ruleTwoOrders.categoryIds⟩,
        allOrdersContext [egOrder, egOrder]⟩ := by
  constructor
  · exact (C4_threshold_priority.2.2.2.2 2 "r2" 15 10 [] [egOrder] (by decide)).mpr (by decide)
  · exact C4_threshold_priority.1 ruleTwoOrders [egOrder, egOrder] 2 rfl (by decide) (by decide)

/-- Claim C5: with non-empty `categoryIds`, the item and amount totals used
for threshold comparison sum only the matching items (not whole orders) and
`totalOrders` counts only orders having at least one matching item; with
empty `categoryIds`, `totalOrders` counts all windowed orders and the totals
are the all-orders aggregates.  In particular a rule scoped to `"pizza"`
never triggers on a window where every item is `"burger"`, even though the
window exceeds every limit globally. -/
theorem C5_category_scoping :
    (∀ (categoryIds : List String) (orders : List Order),
      (relevantScan categoryIds orders).applicableTotalItems =
        specApplicableTotalItems categoryIds orders ∧
      (relevantScan categoryIds orders).applicableTotalAmountCents =
        specApplicableTotalAmountCents categoryIds orders ∧
      (relevantScan categoryIds orders).relevantOrders =
        orders.filter (fun o => !(matchingItems categoryIds o).isEmpty)) ∧
    (∀ (rule : Rule) (orders : List Order), 0 < rule.categoryIds.length →
      totalItems rule orders = specApplicableTotalItems rule.categoryIds orders ∧
      totalAmount rule orders = specApplicableTotalAmountCents rule.categoryIds orders ∧
      totalOrders rule orders =
        ((orders.filter (fun o => !(matchingItems rule.categoryIds o).isEmpty)).length : Int)) ∧
    (∀ (rule : Rule) (orders : List Order), rule.categoryIds = [] →
      totalOrders rule orders = (orders.length : Int) ∧
      totalItems rule orders = specTotalItems orders ∧
      totalAmount rule orders = specTotalAmountCents orders) ∧
    thresholdCheck pizzaRule [burgerOrder, burgerOrder] = none := by
  refine ⟨fun categoryIds orders => ?_, fun rule orders hlen => ?_,
    fun rule orders hnil => ?_, by decide⟩
  · rw [relevantScan_closed]
    exact ⟨rfl, rfl, rfl⟩
  · unfold totalItems totalAmount totalOrders
    rw [if_pos hlen, if_pos hlen, if_pos hlen, relevantScan_closed]
    exact ⟨rfl, rfl, rfl⟩
  · unfold totalItems totalAmount totalOrders
    rw [hnil]
    simp [allOrdersTotalItems_eq, allOrdersTotalAmountCents_eq]

/-- Witness for C5: the totals for the pizza-scoped rule over a single
all-burger order are the category-restricted ones (all zero here). -/
theorem C5_category_scoping_witness :
    totalItems pizzaRule [burgerOrder] = specApplicableTotalItems pizzaRule.categoryIds [burgerOrder] ∧
    totalAmount pizzaRule [burgerOrder] = specApplicableTotalAmountCents pizzaRule.categoryIds [burgerOrder] ∧
    totalOrders pizzaRule [burgerOrder] =
      (([burgerOrder].filter (fun o => !(matchingItems pizzaRule.categoryIds o).isEmpty)).length : Int) :=
  C5_category_scoping.2.1 pizzaRule [burgerOrder] (by decide)

/-- Claim C7: whenever `thresholdCheck` returns a result — whichever
threshold fired and whether or not the rule is category-scoped — the stored
`BusyTimeContext` reports the all-orders aggregates: the sum of all orders'
`totalAmountCents`, the sum of all items' quantities, the count of all
windowed orders, and the set of category ids present across all items —
never the category-filtered subset. -/
theorem C7_context_reports_all_orders (rule : Rule) (orders : List Order)
    (info : ThresholdInfo) (h : thresholdCheck rule orders = some info) :
    info.busyTimeContext.totalAmountCents = specTotalAmountCents orders ∧
    info.busyTimeContext.totalItems = specTotalItems orders ∧
    info.busyTimeContext.totalOrders = (orders.length : Int) ∧
    (∀ c : String,
      c ∈ info.busyTimeContext.categoryIds ↔
        c ≠ "" ∧ ∃ o ∈ orders, ∃ item ∈ o.items.getD [], item.categoryId = some c) := by
  rw [thresholdCheck_context rule orders info h]
  exact ⟨allOrdersTotalAmountCents_eq orders, allOrdersTotalItems_eq orders, rfl,
    fun c => mem_allOrdersCategoryIds orders c⟩

/-- Witness for C7: for the unscoped `maxOrders = 1` rule and the single
burger order, the returned context's amount is the all-orders amount. -/
theorem C7_context_reports_all_orders_witness :
    (⟨⟨.orders, 1, 1, []⟩, ⟨500, 5, 1, ["burger"]⟩⟩ : ThresholdInfo).busyTimeContext.totalAmountCents
      = specTotalAmountCents [burgerOrder] :=
  (C7_context_reports_all_orders plainRuleOne [burgerOrder]
    ⟨⟨.orders, 1, 1, []⟩, ⟨500, 5, 1, ["burger"]⟩⟩ (by decide)).1

end OrderPacing
